import Mathlib

/-
Verification of the IPA transcription tokenizer in
`src/ipa_features/ipa_map.py` (functions `PhoElement.__init__`,
`PhoElement.classify`, `ipa_parser`, `PhoSegment.__init__`,
`segment_generator`, `PhoElement.__eq__`, `PhoElement.__ne__`).

The Python code is shallowly embedded: strings are handled as `String` and
`List Char`, the pandas symbol-table DataFrame becomes an abstract lookup
function `SymbolTable := Char -> Option SymbolRecord`, raised exceptions
become explicit error constructors, and the character-by-character scan of
`ipa_parser` becomes a fold over the character list with an explicit state
record mirroring the Python local variables.
-/

/-- One row of `IPA_Symbol_Table.csv`, as read by `ipa_reference` and looked
up via `ipa_df.loc[...]`.  The columns the code reads are Description,
Symbol-Display, Name, Unicode, Type and Role (the per-type feature columns
are not consulted by any of the verified operations). -/
structure SymbolRecord where
  description : String
  display : String
  name : String
  unicode : String
  type : String
  role : String

deriving instance DecidableEq, Repr for SymbolRecord

/-- The symbol reference table, abstracted to its lookup contract:
`ipa_df.loc[c]` succeeds with a row or raises `KeyError`.  The CSV data file
is external to the sources, so tables are kept as a parameter. -/
def SymbolTable : Type := Char → Option SymbolRecord

/-- Python `str.isspace` restricted to a single character (the tokenizer only
ever tests single characters).  The ASCII whitespace characters are modelled;
all inputs of interest use only these. -/
def py_isspace (c : Char) : Bool :=
  c = ' ' || c = '\t' || c = '\n' || c = '\r' || c = Char.ofNat 0x0B || c = Char.ofNat 0x0C

/-- Python `str.isspace` on a whole (possibly empty) string, used for
`last_char_memory.isspace()`; the empty string is not whitespace. -/
def pyStrIsspace (l : List Char) : Bool :=
  !l.isEmpty && l.all py_isspace

/-- One character of `re.sub(r"[\[\]\\\/]", " ", input_str)`: brackets and
slashes are replaced by a space, everything else is kept. -/
def subDelimChar (c : Char) : Char :=
  if c = '[' || c = ']' || c = '\\' || c = '/' then ' ' else c

/-- Python `str.strip()`: drop leading and trailing whitespace. -/
def pyStripL (l : List Char) : List Char :=
  ((l.dropWhile py_isspace).reverse.dropWhile py_isspace).reverse

/-- The role-switcher marker U+0335 tested by `if "̵" in input_str`. -/
def roleSwitcherChar : Char := Char.ofNat 0x0335

/-- The attributes a `PhoElement` instance carries after `__init__` (and
possibly `classify`).  Attributes that a code path leaves unset are `none`
(reading them in Python would raise `AttributeError`).  `found` records
whether `self.series` holds a row (`true`) as opposed to being `None` or
never assigned. -/
structure PhoElement where
  string : String
  symbol : String
  display : Option String
  description : Option String
  name : Option String
  unicode : Option String
  type : Option String
  role : Option String
  subclass : Option String
  found : Bool

deriving instance DecidableEq, Repr for PhoElement

/-- `PhoElement.__init__` for a single character, following the three code
paths: whitespace (synthetic word boundary, no table lookup), a character
found in the table (all fields copied from the row; `symbol` is the lookup
key itself since `series.name` is the DataFrame index label), and a
character absent from the table (the `KeyError` is caught: a warning is
printed and the element keeps `symbol = string`, `description = "Unknown"`,
with role/type/display/name/unicode left unset). -/
def mkPhoElement (tbl : SymbolTable) (c : Char) : PhoElement :=
  if py_isspace c then
    { string := " ", symbol := " ", display := some " ",
      description := some "Word boundary", name := some "Whitespace",
      unicode := none, type := some "Suprasegmental",
      role := some "boundary", subclass := none, found := false }
  else
    match tbl c with
    | some r =>
      { string := c.toString, symbol := c.toString, display := some r.display,
        description := some r.description, name := some r.name,
        unicode := some r.unicode, type := some r.type,
        role := some r.role, subclass := none, found := true }
    | none =>
      { string := c.toString, symbol := c.toString, display := none,
        description := some "Unknown", name := none,
        unicode := none, type := none,
        role := none, subclass := none, found := false }

/-- `PhoElement.classify`.  The Python method re-constructs the element as a
subclass instance; since the subclass `__init__`s re-run the same lookup and
then only set `subclass`, the net effect on the modelled attributes is an
update of `subclass`.  When `role == "base"` but the type matches neither the
consonant types nor `Vowel`, the Python method falls off the end and returns
`None`. -/
def PhoElement.classify (e : PhoElement) : Option PhoElement :=
  if e.role = some "base" then
    if e.type = some "Consonant" ∨ e.type = some "Implosive" ∨ e.type = some "Click" then
      some { e with subclass := some "consonant" }
    else if e.type = some "Vowel" then
      some { e with subclass := some "vowel" }
    else none
  else if e.role = some "diacritic_right" ∨ e.role = some "diacritic_left" then
    some { e with subclass := some "diacritic" }
  else if e.role = some "compound_right" then
    some { e with subclass := some "ligature" }
  else if e.role = some "boundary" then
    some { e with subclass := some "boundary" }
  else if e.role = some "stress" then
    some { e with subclass := some "stress" }
  else
    some { e with subclass := none }

/-- `PhoElement(char).classify()` as done inside the scan loop. -/
def classifyChar (tbl : SymbolTable) (c : Char) : Option PhoElement :=
  (mkPhoElement tbl c).classify

/-- The element produced for a character `c` whose lookup found row `r`,
with subclass tag `sub` (shorthand used to state classification results). -/
def foundEl (c : Char) (r : SymbolRecord) (sub : Option String) : PhoElement :=
  { string := c.toString, symbol := c.toString, display := some r.display,
    description := some r.description, name := some r.name,
    unicode := some r.unicode, type := some r.type,
    role := some r.role, subclass := sub, found := true }

/-- `PhoBoundary(" ")`: the whitespace `__init__` path followed by the
`PhoBoundary` subclass tag. -/
def wsBoundary : PhoElement :=
  { string := " ", symbol := " ", display := some " ",
    description := some "Word boundary", name := some "Whitespace",
    unicode := none, type := some "Suprasegmental",
    role := some "boundary", subclass := some "boundary", found := false }

/-- `PhoElement.__eq__` between two `PhoElement`s: all four of string,
symbol, type and role must agree. -/
def PhoElement.eqPy (a b : PhoElement) : Bool :=
  decide (a.string = b.string) && decide (a.symbol = b.symbol) &&
  decide (a.type = b.type) && decide (a.role = b.role)

/-- `PhoElement.__ne__` between two `PhoElement`s: all four of string,
symbol, type and role must differ. -/
def PhoElement.nePy (a b : PhoElement) : Bool :=
  decide (a.string ≠ b.string) && decide (a.symbol ≠ b.symbol) &&
  decide (a.type ≠ b.type) && decide (a.role ≠ b.role)

/-- The exceptions the embedded code can raise. -/
inductive PyError where
  | valueError : String → PyError
  | attributeError : PyError

deriving instance DecidableEq, Repr for PyError

/-- Message of the `ValueError` raised for a character missing from the
reference table. -/
def errMsg (c : Char) : String :=
  "Error: " ++ c.toString ++ " not in reference ipa_df"

/-- The local variables of the `ipa_parser` scan loop.  `lastChar` holds the
characters of `last_char_memory` (initially the empty string). -/
structure ParseState where
  transcript : List (List PhoElement)
  seg : List PhoElement
  lastChar : List Char
  hasBase : Bool
  wordCount : Nat

deriving instance DecidableEq, Repr for ParseState

/-- The roles in `segment_enders`. -/
def segmentEnders : List String := ["base", "diacritic_left", "boundary", "stress"]

/-- Python `role in listOfRoles` where the attribute is set. -/
def roleIn (r : Option String) (l : List String) : Bool :=
  match r with
  | some s => l.contains s
  | none => false

/-- One iteration of the `ipa_parser` loop body on character `c`, in source
order: whitespace handling with coalescing, table membership check, boundary
or stress emission, first-element accumulation, segment-ender flush, plain
accumulation. -/
def step (tbl : SymbolTable) (st : ParseState) (c : Char) : Except PyError ParseState :=
  if py_isspace c then
    if pyStrIsspace st.lastChar then
      .ok st
    else
      .ok { transcript := st.transcript ++ [st.seg, [wsBoundary]], seg := [],
            lastChar := [c], hasBase := false, wordCount := st.wordCount + 1 }
  else
    match tbl c with
    | none => .error (.valueError (errMsg c))
    | some _ =>
      match classifyChar tbl c with
      | none => .error .attributeError
      | some ph =>
        if roleIn ph.role ["boundary", "stress"] then
          if st.hasBase then
            .ok { transcript := st.transcript ++ [st.seg, [ph]], seg := [],
                  lastChar := [c], hasBase := false, wordCount := st.wordCount }
          else
            .ok { st with transcript := st.transcript ++ [[ph]], lastChar := [c] }
        else if !st.hasBase then
          .ok { st with
                seg := st.seg ++ [ph]
                hasBase := decide (ph.role = some "base")
                lastChar := [c] }
        else if roleIn ph.role segmentEnders then
          .ok { transcript := st.transcript ++ [st.seg], seg := [ph],
                lastChar := [c], hasBase := decide (ph.role = some "base"),
                wordCount := st.wordCount }
        else
          .ok { st with seg := st.seg ++ [ph], lastChar := [c] }

/-- The scan loop: iterate `step` over the remaining characters. -/
def parseFold (tbl : SymbolTable) : ParseState → List Char → Except PyError ParseState
  | st, [] => .ok st
  | st, c :: cs =>
    match step tbl st c with
    | .error e => .error e
    | .ok st1 => parseFold tbl st1 cs

/-- Initial loop state of `ipa_parser`. -/
def initState : ParseState :=
  { transcript := [], seg := [], lastChar := [], hasBase := false, wordCount := 1 }

/-- Result of a call to `ipa_parser` on a string: an uncaught exception, the
sentinel `[""]` returned when the input contains the role-switcher marker, or
the transcript. -/
inductive ParseResult where
  | error : PyError → ParseResult
  | sentinel : ParseResult
  | ok : List (List PhoElement) → ParseResult

deriving instance DecidableEq, Repr for ParseResult

/-- Whether a `ParseResult` is a raised exception. -/
def ParseResult.isError : ParseResult → Bool
  | .error _ => true
  | _ => false

/-- `ipa_parser` (the tokenizer), for string input: replace bracket and slash
delimiters by spaces, return the sentinel `[""]` when the role-switcher
marker is present, otherwise scan the stripped input and append the final
segment buffer. -/
def ipaParser (tbl : SymbolTable) (s : String) : ParseResult :=
  if roleSwitcherChar ∈ s.toList.map subDelimChar then
    .sentinel
  else
    match parseFold tbl initState (pyStripL (s.toList.map subDelimChar)) with
    | .error e => .error e
    | .ok st => .ok (st.transcript ++ [st.seg])

/-- The attributes computed by `PhoSegment.__init__` (the unimplemented
`stress`/`syllable`/`word`/`features` placeholders are omitted). -/
structure PhoSegment where
  components : List PhoElement
  string : String
  base : List PhoElement
  right_diacritics : List PhoElement
  left_diacritics : List PhoElement

deriving instance DecidableEq, Repr for PhoSegment

/-- `PhoSegment.__init__`: raise `ValueError` (here `none`) when no component
has role `base`, otherwise derive the joined symbol string and the role-based
projections. -/
def mkPhoSegment (components : List PhoElement) : Option PhoSegment :=
  if components.any (fun comp => decide (comp.role = some "base")) then
    some { components := components,
           string := String.join (components.map (fun comp => comp.symbol)),
           base := components.filter (fun comp => decide (comp.role = some "base")),
           right_diacritics :=
             components.filter (fun comp => decide (comp.role = some "diacritic_right")),
           left_diacritics :=
             components.filter (fun comp => decide (comp.role = some "diacritic_left")) }
  else
    none

/-- `segment_generator`: parse, then yield a `PhoSegment` per transcript
entry, skipping entries whose construction raises `ValueError`.  On the
sentinel `[""]` the loop iterates over the one-character-less string `""`,
whose `PhoSegment` construction also raises and is skipped, so nothing is
yielded.  An exception from `ipa_parser` itself propagates. -/
def segment_generator (tbl : SymbolTable) (s : String) : Except PyError (List PhoSegment) :=
  match ipaParser tbl s with
  | .error e => .error e
  | .sentinel => .ok []
  | .ok t => .ok (t.filterMap mkPhoSegment)

/-- Characters of one element's resolved symbol. -/
def symChars (e : PhoElement) : List Char := e.symbol.toList

/-- Concatenated symbol characters of one transcript entry. -/
def entryChars : List PhoElement → List Char
  | [] => []
  | e :: es => symChars e ++ entryChars es

/-- Concatenated symbol characters of a whole transcript, in order. -/
def transcriptChars : List (List PhoElement) → List Char
  | [] => []
  | l :: ls => entryChars l ++ transcriptChars ls

/-- Whitespace normalization: every whitespace character becomes a plain
space and runs collapse to a single space; the flag records whether the
previous character was whitespace. -/
def coalesceChars : Bool → List Char → List Char
  | _, [] => []
  | lastSp, c :: cs =>
    if py_isspace c then
      if lastSp then coalesceChars true cs else ' ' :: coalesceChars true cs
    else
      c :: coalesceChars false cs

/-- The delimiter-substituted, trimmed, whitespace-coalesced form of an input
string. -/
def normalizeChars (s : String) : List Char :=
  coalesceChars false (pyStripL (s.toList.map subDelimChar))

/-- Whether, scanning `cs` from state `st`, some boundary- or stress-role
character is reached while `hasBase` is false and the segment buffer is
nonempty (the configuration in which the scan emits the boundary/stress
entry ahead of the still-buffered elements). -/
def badHere (tbl : SymbolTable) (st : ParseState) (c : Char) : Bool :=
  !py_isspace c &&
    (match tbl c with
     | none => false
     | some _ =>
       match classifyChar tbl c with
       | none => false
       | some ph =>
         roleIn ph.role ["boundary", "stress"] && !st.hasBase && !st.seg.isEmpty)

/-- `badHere` anywhere along the run of the scan from `st` over `cs`. -/
def anyBad (tbl : SymbolTable) : ParseState → List Char → Bool
  | _, [] => false
  | st, c :: cs =>
    badHere tbl st c ||
      (match step tbl st c with
       | .error _ => false
       | .ok st1 => anyBad tbl st1 cs)

/-- A table is well formed when every row with role `base` carries one of the
four types `classify` knows, so classification never returns `None`.  The
shipped `IPA_Symbol_Table.csv` satisfies this per the specification of the
role/type mapping. -/
def WellFormedTable (tbl : SymbolTable) : Prop :=
  ∀ c r, tbl c = some r → r.role = "base" →
    r.type = "Consonant" ∨ r.type = "Implosive" ∨ r.type = "Click" ∨ r.type = "Vowel"

/-- Modelled from the spec: the CSV data file `IPA_Symbol_Table.csv` is not
among the sources, so a small instance of the Symbol Table is built from the
rows the specification and the test suite describe: `t`, `b` are base
consonants, `o`, `a` are base vowels, `ᵐ` is a left diacritic, `ʰ` a right
diacritic, `ˈ` a stress marker and `.` a boundary; every other character is
absent. -/
def sampleTable : SymbolTable := fun c =>
  if c = 't' then
    some { description := "", display := "t", name := "t", unicode := "",
           type := "Consonant", role := "base" }
  else if c = 'b' then
    some { description := "", display := "b", name := "b", unicode := "",
           type := "Consonant", role := "base" }
  else if c = 'o' then
    some { description := "", display := "o", name := "o", unicode := "",
           type := "Vowel", role := "base" }
  else if c = 'a' then
    some { description := "", display := "a", name := "a", unicode := "",
           type := "Vowel", role := "base" }
  else if c = 'ᵐ' then
    some { description := "", display := "ᵐ", name := "ᵐ", unicode := "",
           type := "Diacritic", role := "diacritic_left" }
  else if c = 'ʰ' then
    some { description := "", display := "ʰ", name := "ʰ", unicode := "",
           type := "Diacritic", role := "diacritic_right" }
  else if c = 'ˈ' then
    some { description := "", display := "ˈ", name := "ˈ", unicode := "",
           type := "Suprasegmental", role := "stress" }
  else if c = '.' then
    some { description := "", display := ".", name := ".", unicode := "",
           type := "Suprasegmental", role := "boundary" }
  else
    none

/-- The classified element for `t` under `sampleTable`. -/
def elT : PhoElement :=
  { string := "t", symbol := "t", display := some "t", description := some "",
    name := some "t", unicode := some "", type := some "Consonant",
    role := some "base", subclass := some "consonant", found := true }

/-- The classified element for `b` under `sampleTable`. -/
def elB : PhoElement :=
  { string := "b", symbol := "b", display := some "b", description := some "",
    name := some "b", unicode := some "", type := some "Consonant",
    role := some "base", subclass := some "consonant", found := true }

/-- The classified element for `o` under `sampleTable`. -/
def elO : PhoElement :=
  { string := "o", symbol := "o", display := some "o", description := some "",
    name := some "o", unicode := some "", type := some "Vowel",
    role := some "base", subclass := some "vowel", found := true }

/-- The classified element for `a` under `sampleTable`. -/
def elA : PhoElement :=
  { string := "a", symbol := "a", display := some "a", description := some "",
    name := some "a", unicode := some "", type := some "Vowel",
    role := some "base", subclass := some "vowel", found := true }

/-- The classified element for `ᵐ` under `sampleTable`. -/
def elM : PhoElement :=
  { string := "ᵐ", symbol := "ᵐ", display := some "ᵐ", description := some "",
    name := some "ᵐ", unicode := some "", type := some "Diacritic",
    role := some "diacritic_left", subclass := some "diacritic", found := true }

/-- The classified element for `ʰ` under `sampleTable`. -/
def elH : PhoElement :=
  { string := "ʰ", symbol := "ʰ", display := some "ʰ", description := some "",
    name := some "ʰ", unicode := some "", type := some "Diacritic",
    role := some "diacritic_right", subclass := some "diacritic", found := true }

/-- The classified element for `ˈ` under `sampleTable`. -/
def elStress : PhoElement :=
  { string := "ˈ", symbol := "ˈ", display := some "ˈ", description := some "",
    name := some "ˈ", unicode := some "", type := some "Suprasegmental",
    role := some "stress", subclass := some "stress", found := true }

/-! Helper lemmas shared by the claim theorems. -/

theorem toList_charToString (c : Char) : c.toString.toList = [c] := rfl

theorem dropWhile_eq_self_of_all {p : Char → Bool} (l : List Char)
    (h : ∀ c ∈ l, p c = false) : l.dropWhile p = l := by
  cases l with
  | nil => rfl
  | cons a l => rw [List.dropWhile_cons, h a (by simp)]; simp

theorem pyStripL_of_no_space (l : List Char) (h : ∀ c ∈ l, py_isspace c = false) :
    pyStripL l = l := by
  unfold pyStripL
  rw [dropWhile_eq_self_of_all l h,
      dropWhile_eq_self_of_all l.reverse (fun c hc => h c (List.mem_reverse.mp hc)),
      List.reverse_reverse]

theorem entryChars_append (a b : List PhoElement) :
    entryChars (a ++ b) = entryChars a ++ entryChars b := by
  induction a with
  | nil => rfl
  | cons e es ih => simp [entryChars, ih]

theorem transcriptChars_append (a b : List (List PhoElement)) :
    transcriptChars (a ++ b) = transcriptChars a ++ transcriptChars b := by
  induction a with
  | nil => rfl
  | cons l ls ih => simp [transcriptChars, ih]

theorem classify_eq_some_fields (e ph : PhoElement) (h : e.classify = some ph) :
    ph.string = e.string ∧ ph.symbol = e.symbol ∧ ph.type = e.type ∧ ph.role = e.role := by
  unfold PhoElement.classify at h
  split_ifs at h <;> (rw [Option.some.injEq] at h; subst h; simp_all)

/-- C1: amended.  For every input string containing the role-switcher marker
U+0335, `ipa_parser` returns — up front, before the character scan — the
sentinel value `[""]` (here `ParseResult.sentinel`); it does not raise any
error and produces no transcript entries. -/
theorem C1_roleSwitcher_returns_sentinel (tbl : SymbolTable) (s : String)
    (h : roleSwitcherChar ∈ s.toList) : ipaParser tbl s = .sentinel := by
  unfold ipaParser
  have hm : roleSwitcherChar ∈ s.toList.map subDelimChar :=
    List.mem_map.mpr ⟨roleSwitcherChar, h, by decide⟩
  rw [if_pos hm]

/-- C1 witness: the concrete input `"t̵o"` contains the marker and parses to
the sentinel. -/
theorem C1_roleSwitcher_returns_sentinel_witness :
    roleSwitcherChar ∈ ("t̵o").toList ∧ ipaParser sampleTable "t̵o" = .sentinel :=
  ⟨by decide, C1_roleSwitcher_returns_sentinel sampleTable "t̵o" (by decide)⟩

/-- C1 counterexample to the claim as stated: on `"t̵o"` the tokenizer does
not fail with any error — it returns the sentinel value. -/
theorem C1_no_error_on_roleSwitcher_cex :
    ipaParser sampleTable "t̵o" = .sentinel ∧
    (ipaParser sampleTable "t̵o").isError = false := by
  constructor
  · decide
  · decide

/-- C2: amended.  Constructing a `PhoElement` from a single non-whitespace
character absent from the Symbol Table does not fail: the `KeyError` from the
lookup is caught inside `__init__` (a warning is printed), and the element is
returned with `symbol` equal to the character, `description = "Unknown"`, and
role/type/display/name/unicode left unset. -/
theorem C2_unknown_symbol_recovered (tbl : SymbolTable) (c : Char)
    (hsp : py_isspace c = false) (htbl : tbl c = none) :
    mkPhoElement tbl c =
      { string := c.toString, symbol := c.toString, display := none,
        description := some "Unknown", name := none, unicode := none,
        type := none, role := none, subclass := none, found := false } := by
  simp [mkPhoElement, hsp, htbl]

/-- C2 witness: the euro sign is not in the table and yields the recovered
unknown element. -/
theorem C2_unknown_symbol_recovered_witness :
    py_isspace '€' = false ∧ sampleTable '€' = none ∧
    mkPhoElement sampleTable '€' =
      { string := "€", symbol := "€", display := none,
        description := some "Unknown", name := none, unicode := none,
        type := none, role := none, subclass := none, found := false } :=
  ⟨by decide, by decide, C2_unknown_symbol_recovered sampleTable '€' (by decide) (by decide)⟩

/-- C2 counterexample to the claim as stated: for the unknown character `€`
the constructor succeeds and returns a recovered element (the exception is
caught locally), rather than failing with an error that propagates. -/
theorem C2_no_failure_on_unknown_cex :
    sampleTable '€' = none ∧
    mkPhoElement sampleTable '€' =
      { string := "€", symbol := "€", display := none,
        description := some "Unknown", name := none, unicode := none,
        type := none, role := none, subclass := none, found := false } := by
  constructor
  · decide
  · decide

/-- C3: amended.  During the scan, when a character classified with role
`boundary` or `stress` is reached while `has_base` is false, the element is
appended to the transcript as its own singleton entry directly; the current
segment buffer is neither emitted nor cleared — it stays in place and keeps
accumulating. -/
theorem C3_boundary_stress_without_base (tbl : SymbolTable) (st : ParseState)
    (c : Char) (r : SymbolRecord) (ph : PhoElement)
    (hsp : py_isspace c = false) (htbl : tbl c = some r)
    (hcl : classifyChar tbl c = some ph)
    (hrole : roleIn ph.role ["boundary", "stress"] = true)
    (hbase : st.hasBase = false) :
    step tbl st c = .ok { st with transcript := st.transcript ++ [[ph]], lastChar := [c] } := by
  simp [step, hsp, htbl, hcl, hrole, hbase]

/-- C3 witness: stress marker scanned while a left diacritic is buffered and
no base has been seen; the stress entry is emitted alone and the buffer
`[elM]` is untouched. -/
theorem C3_boundary_stress_without_base_witness :
    step sampleTable
        { transcript := [], seg := [elM], lastChar := ['ᵐ'], hasBase := false, wordCount := 1 }
        'ˈ' =
      .ok { transcript := [[elStress]], seg := [elM], lastChar := ['ˈ'],
            hasBase := false, wordCount := 1 } := by
  have h := C3_boundary_stress_without_base sampleTable
    { transcript := [], seg := [elM], lastChar := ['ᵐ'], hasBase := false, wordCount := 1 }
    'ˈ'
    { description := "", display := "ˈ", name := "ˈ", unicode := "",
      type := "Suprasegmental", role := "stress" }
    elStress (by decide) (by decide) (by decide) (by decide) rfl
  simpa using h

/-- C3 counterexample to the claim as stated: on `"ᵐˈt"` the buffered left
diacritic is NOT emitted before the stress entry; the scan produces
`[[ˈ], [ᵐ, t]]`, not the `[[ᵐ], [ˈ], [t]]` the claim describes. -/
theorem C3_buffer_not_emitted_cex :
    ipaParser sampleTable "ᵐˈt" = .ok [[elStress], [elM, elT]] ∧
    ParseResult.ok [[elStress], [elM, elT]] ≠ ParseResult.ok [[elM], [elStress], [elT]] := by
  constructor
  · decide
  · decide

/-- C8: confirmed.  Constructing a `PhoSegment` from components with no
base-role element fails with `ValueError` (modelled as `none`), and on the
spec's example components `[Diacritic ᵐ, Consonant t]` the derived fields are
the role-based projections: string `"ᵐt"`, base `[t]`, left diacritics
`[ᵐ]`, right diacritics `[]`. -/
theorem C8_segment_construction :
    (∀ comps : List PhoElement, (∀ e ∈ comps, e.role ≠ some "base") →
      mkPhoSegment comps = none) ∧
    mkPhoSegment [elM, elT] =
      some { components := [elM, elT], string := "ᵐt", base := [elT],
             right_diacritics := [], left_diacritics := [elM] } := by
  constructor
  · intro comps h
    have hany : comps.any (fun comp => decide (comp.role = some "base")) = false := by
      rw [List.any_eq_false]
      intro e he
      simpa using h e he
    simp [mkPhoSegment, hany]
  · decide

/-- C8 witness: a lone stress element has no base so construction fails; the
example components succeed with the projected fields. -/
theorem C8_segment_construction_witness :
    mkPhoSegment [elStress] = none ∧
    mkPhoSegment [elM, elT] =
      some { components := [elM, elT], string := "ᵐt", base := [elT],
             right_diacritics := [], left_diacritics := [elM] } :=
  ⟨C8_segment_construction.1 [elStress] (by decide), C8_segment_construction.2⟩

/-- C9 helper: yielding a `PhoSegment` per entry and skipping failures is
filtering by the base-containing entries, and each yielded segment keeps its
entry as `components`. -/
theorem filterMap_mkPhoSegment_components (t : List (List PhoElement)) :
    (t.filterMap mkPhoSegment).map PhoSegment.components =
      t.filter (fun e => e.any (fun comp => decide (comp.role = some "base"))) := by
  induction t with
  | nil => rfl
  | cons e es ih =>
    cases hany : e.any (fun comp => decide (comp.role = some "base")) with
    | false => simp [List.filterMap_cons, List.filter_cons, mkPhoSegment, hany, ih]
    | true => simp [List.filterMap_cons, List.filter_cons, mkPhoSegment, hany, ih]

/-- C9: confirmed.  For every tokenized transcript, `segment_generator`
yields (in order) one `Segment` for exactly those entries that contain a
base-role element — the ones passing Segment validation — and silently skips
the entries whose construction fails, with no error propagating. -/
theorem C9_segment_stream_filters (tbl : SymbolTable) (s : String)
    (t : List (List PhoElement)) (h : ipaParser tbl s = .ok t) :
    ∃ l, segment_generator tbl s = .ok l ∧
      l.map PhoSegment.components =
        t.filter (fun e => e.any (fun comp => decide (comp.role = some "base"))) := by
  refine ⟨t.filterMap mkPhoSegment, ?_, filterMap_mkPhoSegment_components t⟩
  unfold segment_generator
  rw [h]

/-- C9 witness: on `"ˈta"` the transcript has a stress entry and two base
entries; the stream yields exactly the two base-containing entries. -/
theorem C9_segment_stream_filters_witness :
    ipaParser sampleTable "ˈta" = .ok [[elStress], [elT], [elA]] ∧
    ∃ l, segment_generator sampleTable "ˈta" = .ok l ∧
      l.map PhoSegment.components =
        [[elStress], [elT], [elA]].filter
          (fun e => e.any (fun comp => decide (comp.role = some "base"))) :=
  ⟨by decide, C9_segment_stream_filters sampleTable "ˈta" [[elStress], [elT], [elA]] (by decide)⟩

/-- C10: confirmed.  `__ne__` is not the negation of `__eq__`: whenever two
elements agree on at least one but not all of string, symbol, type and role,
both comparisons return `False`. -/
theorem C10_ne_not_negation_of_eq (a b : PhoElement)
    (hagree : a.string = b.string ∨ a.symbol = b.symbol ∨ a.type = b.type ∨ a.role = b.role)
    (hnotall : ¬(a.string = b.string ∧ a.symbol = b.symbol ∧ a.type = b.type ∧ a.role = b.role)) :
    PhoElement.eqPy a b = false ∧ PhoElement.nePy a b = false := by
  constructor
  · cases heq : PhoElement.eqPy a b with
    | false => rfl
    | true =>
      exfalso
      apply hnotall
      simp only [PhoElement.eqPy, Bool.and_eq_true, decide_eq_true_eq] at heq
      exact ⟨heq.1.1.1, heq.1.1.2, heq.1.2, heq.2⟩
  · cases hne : PhoElement.nePy a b with
    | false => rfl
    | true =>
      exfalso
      simp only [PhoElement.nePy, Bool.and_eq_true, decide_eq_true_eq] at hne
      rcases hagree with h | h | h | h
      · exact hne.1.1.1 h
      · exact hne.1.1.2 h
      · exact hne.1.2 h
      · exact hne.2 h

/-- C10 witness: `t` and `b` share type and role but differ on string and
symbol, so both `__eq__` and `__ne__` give `False`. -/
theorem C10_ne_not_negation_of_eq_witness :
    (elT.string = elB.string ∨ elT.symbol = elB.symbol ∨
      elT.type = elB.type ∨ elT.role = elB.role) ∧
    ¬(elT.string = elB.string ∧ elT.symbol = elB.symbol ∧
      elT.type = elB.type ∧ elT.role = elB.role) ∧
    PhoElement.eqPy elT elB = false ∧ PhoElement.nePy elT elB = false :=
  ⟨by decide, by decide, C10_ne_not_negation_of_eq elT elB (by decide) (by decide)⟩


theorem mkPhoElement_found (tbl : SymbolTable) (c : Char) (r : SymbolRecord)
    (hsp : py_isspace c = false) (h : tbl c = some r) :
    mkPhoElement tbl c = foundEl c r none := by
  simp [mkPhoElement, foundEl, hsp, h]

theorem classifyChar_consonant (tbl : SymbolTable) (c : Char) (r : SymbolRecord)
    (hsp : py_isspace c = false) (h : tbl c = some r)
    (hrole : r.role = "base") (hty : r.type = "Consonant") :
    classifyChar tbl c = some (foundEl c r (some "consonant")) := by
  rw [classifyChar, mkPhoElement_found tbl c r hsp h]
  simp [PhoElement.classify, foundEl, hrole, hty]

theorem classifyChar_vowel (tbl : SymbolTable) (c : Char) (r : SymbolRecord)
    (hsp : py_isspace c = false) (h : tbl c = some r)
    (hrole : r.role = "base") (hty : r.type = "Vowel") :
    classifyChar tbl c = some (foundEl c r (some "vowel")) := by
  rw [classifyChar, mkPhoElement_found tbl c r hsp h]
  simp [PhoElement.classify, foundEl, hrole, hty]

theorem classifyChar_diacritic_left (tbl : SymbolTable) (c : Char) (r : SymbolRecord)
    (hsp : py_isspace c = false) (h : tbl c = some r)
    (hrole : r.role = "diacritic_left") :
    classifyChar tbl c = some (foundEl c r (some "diacritic")) := by
  rw [classifyChar, mkPhoElement_found tbl c r hsp h]
  simp [PhoElement.classify, foundEl, hrole]

theorem parseFold_cons_ok (tbl : SymbolTable) (st st1 : ParseState) (c : Char)
    (cs : List Char) (h : step tbl st c = .ok st1) :
    parseFold tbl st (c :: cs) = parseFold tbl st1 cs := by
  simp [parseFold, h]

theorem parseFold_nil (tbl : SymbolTable) (st : ParseState) :
    parseFold tbl st [] = .ok st := rfl

/-- C6: confirmed.  For every base consonant `c1`, `diacritic_left`-role
character `c2` and base vowel `c3` (none of them whitespace, delimiters or
the role-switcher marker), tokenizing the three-character input produces
exactly two entries: the consonant alone, then the left diacritic followed
by the vowel. -/
theorem C6_diacritic_left_starts_new_segment (tbl : SymbolTable)
    (c1 c2 c3 : Char) (r1 r2 r3 : SymbolRecord)
    (hsp1 : py_isspace c1 = false) (hsp2 : py_isspace c2 = false)
    (hsp3 : py_isspace c3 = false)
    (hd1 : subDelimChar c1 = c1) (hd2 : subDelimChar c2 = c2)
    (hd3 : subDelimChar c3 = c3)
    (hne1 : c1 ≠ roleSwitcherChar) (hne2 : c2 ≠ roleSwitcherChar)
    (hne3 : c3 ≠ roleSwitcherChar)
    (h1 : tbl c1 = some r1) (hrole1 : r1.role = "base") (hty1 : r1.type = "Consonant")
    (h2 : tbl c2 = some r2) (hrole2 : r2.role = "diacritic_left")
    (h3 : tbl c3 = some r3) (hrole3 : r3.role = "base") (hty3 : r3.type = "Vowel") :
    ipaParser tbl (String.mk [c1, c2, c3]) =
      .ok [[foundEl c1 r1 (some "consonant")],
           [foundEl c2 r2 (some "diacritic"), foundEl c3 r3 (some "vowel")]] := by
  have htl : (String.mk [c1, c2, c3]).toList = [c1, c2, c3] := rfl
  have hmap : [c1, c2, c3].map subDelimChar = [c1, c2, c3] := by
    simp [hd1, hd2, hd3]
  have hnm : roleSwitcherChar ∉ ([c1, c2, c3] : List Char) := by
    intro hmem
    rcases List.mem_cons.mp hmem with h | hmem
    · exact hne1 h.symm
    rcases List.mem_cons.mp hmem with h | hmem
    · exact hne2 h.symm
    rcases List.mem_cons.mp hmem with h | hmem
    · exact hne3 h.symm
    · exact absurd hmem (List.not_mem_nil _)
  have hstrip : pyStripL [c1, c2, c3] = [c1, c2, c3] := by
    apply pyStripL_of_no_space
    intro c hc
    rcases List.mem_cons.mp hc with h | hc
    · exact h ▸ hsp1
    rcases List.mem_cons.mp hc with h | hc
    · exact h ▸ hsp2
    rcases List.mem_cons.mp hc with h | hc
    · exact h ▸ hsp3
    · exact absurd hc (List.not_mem_nil _)
  have hcl1 := classifyChar_consonant tbl c1 r1 hsp1 h1 hrole1 hty1
  have hcl2 := classifyChar_diacritic_left tbl c2 r2 hsp2 h2 hrole2
  have hcl3 := classifyChar_vowel tbl c3 r3 hsp3 h3 hrole3 hty3
  have hstep1 : step tbl initState c1 =
      .ok ⟨[], [foundEl c1 r1 (some "consonant")], [c1], true, 1⟩ := by
    simp [step, initState, hsp1, h1, hcl1, roleIn, foundEl, hrole1]
  have hstep2 : step tbl ⟨[], [foundEl c1 r1 (some "consonant")], [c1], true, 1⟩ c2 =
      .ok ⟨[[foundEl c1 r1 (some "consonant")]],
           [foundEl c2 r2 (some "diacritic")], [c2], false, 1⟩ := by
    simp [step, hsp2, h2, hcl2, roleIn, foundEl, hrole2, segmentEnders]
  have hstep3 : step tbl
      ⟨[[foundEl c1 r1 (some "consonant")]],
       [foundEl c2 r2 (some "diacritic")], [c2], false, 1⟩ c3 =
      .ok ⟨[[foundEl c1 r1 (some "consonant")]],
           [foundEl c2 r2 (some "diacritic"), foundEl c3 r3 (some "vowel")],
           [c3], true, 1⟩ := by
    simp [step, hsp3, h3, hcl3, roleIn, foundEl, hrole3]
  unfold ipaParser
  rw [htl, hmap, if_neg hnm, hstrip]
  rw [parseFold_cons_ok tbl _ _ c1 _ hstep1,
      parseFold_cons_ok tbl _ _ c2 _ hstep2,
      parseFold_cons_ok tbl _ _ c3 _ hstep3,
      parseFold_nil]
  rfl

/-- C6 witness: under the sample table, `tᵐo` tokenizes to `[[t], [ᵐ, o]]`. -/
theorem C6_diacritic_left_starts_new_segment_witness :
    ipaParser sampleTable (String.mk ['t', 'ᵐ', 'o']) = .ok [[elT], [elM, elO]] := by
  have h := C6_diacritic_left_starts_new_segment sampleTable 't' 'ᵐ' 'o'
    ⟨"", "t", "t", "", "Consonant", "base"⟩
    ⟨"", "ᵐ", "ᵐ", "", "Diacritic", "diacritic_left"⟩
    ⟨"", "o", "o", "", "Vowel", "base"⟩
    (by decide) (by decide) (by decide) (by decide) (by decide) (by decide)
    (by decide) (by decide) (by decide) (by decide) rfl rfl (by decide) rfl
    (by decide) rfl rfl
  simpa [elT, elM, elO, foundEl] using h

/-- C7: confirmed.  Runs of whitespace coalesce into one boundary entry:
for any table resolving `a` to a base vowel and `b` to a base consonant,
`tokenize("a  b")` (two spaces) yields the segment for `a`, exactly one
boundary entry, then the segment for `b`, and it equals `tokenize("a b")`. -/
theorem C7_whitespace_coalescing (tbl : SymbolTable) (ra rb : SymbolRecord)
    (ha : tbl 'a' = some ra) (hrola : ra.role = "base") (htya : ra.type = "Vowel")
    (hb : tbl 'b' = some rb) (hrolb : rb.role = "base") (htyb : rb.type = "Consonant") :
    ipaParser tbl "a  b" =
      .ok [[foundEl 'a' ra (some "vowel")], [wsBoundary], [foundEl 'b' rb (some "consonant")]] ∧
    ipaParser tbl "a  b" = ipaParser tbl "a b" := by
  have hspa : py_isspace 'a' = false := by decide
  have hspb : py_isspace 'b' = false := by decide
  have hcla := classifyChar_vowel tbl 'a' ra hspa ha hrola htya
  have hclb := classifyChar_consonant tbl 'b' rb hspb hb hrolb htyb
  have hstepa : step tbl initState 'a' =
      .ok ⟨[], [foundEl 'a' ra (some "vowel")], ['a'], true, 1⟩ := by
    simp [step, initState, hspa, ha, hcla, roleIn, foundEl, hrola]
  have hsps : py_isspace ' ' = true := by decide
  have hlsa : pyStrIsspace ['a'] = false := by decide
  have hlss : pyStrIsspace [' '] = true := by decide
  have hstepsp : step tbl ⟨[], [foundEl 'a' ra (some "vowel")], ['a'], true, 1⟩ ' ' =
      .ok ⟨[[foundEl 'a' ra (some "vowel")], [wsBoundary]], [], [' '], false, 2⟩ := by
    simp [step, hsps, hlsa]
  have hstepsp2 : step tbl
      ⟨[[foundEl 'a' ra (some "vowel")], [wsBoundary]], [], [' '], false, 2⟩ ' ' =
      .ok ⟨[[foundEl 'a' ra (some "vowel")], [wsBoundary]], [], [' '], false, 2⟩ := by
    simp [step, hsps, hlss]
  have hstepb : step tbl
      ⟨[[foundEl 'a' ra (some "vowel")], [wsBoundary]], [], [' '], false, 2⟩ 'b' =
      .ok ⟨[[foundEl 'a' ra (some "vowel")], [wsBoundary]],
           [foundEl 'b' rb (some "consonant")], ['b'], true, 2⟩ := by
    simp [step, hspb, hb, hclb, roleIn, foundEl, hrolb]
  have h2 : ipaParser tbl "a  b" =
      .ok [[foundEl 'a' ra (some "vowel")], [wsBoundary], [foundEl 'b' rb (some "consonant")]] := by
    unfold ipaParser
    rw [show ("a  b").toList.map subDelimChar = ['a', ' ', ' ', 'b'] from by decide,
        if_neg (by decide : ¬roleSwitcherChar ∈ (['a', ' ', ' ', 'b'] : List Char)),
        show pyStripL ['a', ' ', ' ', 'b'] = ['a', ' ', ' ', 'b'] from by decide]
    rw [parseFold_cons_ok tbl _ _ 'a' _ hstepa,
        parseFold_cons_ok tbl _ _ ' ' _ hstepsp,
        parseFold_cons_ok tbl _ _ ' ' _ hstepsp2,
        parseFold_cons_ok tbl _ _ 'b' _ hstepb,
        parseFold_nil]
    rfl
  have h1 : ipaParser tbl "a b" =
      .ok [[foundEl 'a' ra (some "vowel")], [wsBoundary], [foundEl 'b' rb (some "consonant")]] := by
    unfold ipaParser
    rw [show ("a b").toList.map subDelimChar = ['a', ' ', 'b'] from by decide,
        if_neg (by decide : ¬roleSwitcherChar ∈ (['a', ' ', 'b'] : List Char)),
        show pyStripL ['a', ' ', 'b'] = ['a', ' ', 'b'] from by decide]
    rw [parseFold_cons_ok tbl _ _ 'a' _ hstepa,
        parseFold_cons_ok tbl _ _ ' ' _ hstepsp,
        parseFold_cons_ok tbl _ _ 'b' _ hstepb,
        parseFold_nil]
    rfl
  exact ⟨h2, h2.trans h1.symm⟩

/-- C7 witness: the sample table instantiates the claim on `"a  b"`. -/
theorem C7_whitespace_coalescing_witness :
    ipaParser sampleTable "a  b" = .ok [[elA], [wsBoundary], [elB]] ∧
    ipaParser sampleTable "a  b" = ipaParser sampleTable "a b" := by
  have h := C7_whitespace_coalescing sampleTable
    ⟨"", "a", "a", "", "Vowel", "base"⟩
    ⟨"", "b", "b", "", "Consonant", "base"⟩
    rfl rfl rfl rfl rfl rfl
  exact ⟨by rw [h.1]; rfl, h.2⟩

theorem sampleTable_wf : WellFormedTable sampleTable := by
  intro c r h hb
  unfold sampleTable at h
  split_ifs at h <;> (rw [Option.some.injEq] at h; subst h; simp_all)

theorem classifyChar_total (tbl : SymbolTable) (c : Char) (r : SymbolRecord)
    (wf : WellFormedTable tbl) (hsp : py_isspace c = false) (h : tbl c = some r) :
    ∃ ph, classifyChar tbl c = some ph := by
  rw [classifyChar, mkPhoElement_found tbl c r hsp h]
  unfold PhoElement.classify
  by_cases hb : r.role = "base"
  · rcases wf c r h hb with hty | hty | hty | hty <;> simp [foundEl, hb, hty]
  · simp only [foundEl, Option.some.injEq, hb, if_false]
    split_ifs <;> exact ⟨_, rfl⟩

theorem step_always_ok (tbl : SymbolTable) (st : ParseState) (c : Char)
    (wf : WellFormedTable tbl) (h : py_isspace c = true ∨ ∃ r, tbl c = some r) :
    ∃ st1, step tbl st c = .ok st1 := by
  cases hsp : py_isspace c with
  | true =>
    cases hls : pyStrIsspace st.lastChar with
    | true => exact ⟨st, by simp [step, hsp, hls]⟩
    | false =>
      exact ⟨⟨st.transcript ++ [st.seg, [wsBoundary]], [], [c], false, st.wordCount + 1⟩,
        by simp [step, hsp, hls]⟩
  | false =>
    rcases h with hsp1 | ⟨r, hr⟩
    · rw [hsp] at hsp1; exact Bool.noConfusion hsp1
    rcases classifyChar_total tbl c r wf hsp hr with ⟨ph, hcl⟩
    by_cases hbs : roleIn ph.role ["boundary", "stress"] = true
    · cases hhb : st.hasBase with
      | true =>
        exact ⟨⟨st.transcript ++ [st.seg, [ph]], [], [c], false, st.wordCount⟩,
          by simp [step, hsp, hr, hcl, hbs, hhb]⟩
      | false =>
        exact ⟨⟨st.transcript ++ [[ph]], st.seg, [c], st.hasBase, st.wordCount⟩,
          by simp [step, hsp, hr, hcl, hbs, hhb]⟩
    · cases hhb : st.hasBase with
      | false =>
        exact ⟨⟨st.transcript, st.seg ++ [ph], [c],
            decide (ph.role = some "base"), st.wordCount⟩,
          by simp [step, hsp, hr, hcl, hbs, hhb]⟩
      | true =>
        by_cases hend : roleIn ph.role segmentEnders = true
        · exact ⟨⟨st.transcript ++ [st.seg], [ph], [c],
              decide (ph.role = some "base"), st.wordCount⟩,
            by simp [step, hsp, hr, hcl, hbs, hhb, hend]⟩
        · exact ⟨⟨st.transcript, st.seg ++ [ph], [c], st.hasBase, st.wordCount⟩,
            by simp [step, hsp, hr, hcl, hbs, hhb, hend]⟩

theorem parseFold_unknown_err (tbl : SymbolTable) (wf : WellFormedTable tbl) :
    ∀ (cs : List Char) (st : ParseState),
      (∃ c ∈ cs, py_isspace c = false ∧ tbl c = none) →
      ∃ c, py_isspace c = false ∧ tbl c = none ∧
        parseFold tbl st cs = .error (.valueError (errMsg c)) := by
  intro cs
  induction cs with
  | nil =>
    intro st h
    rcases h with ⟨c, hc, _⟩
    exact absurd hc (List.not_mem_nil c)
  | cons c cs ih =>
    intro st h
    rcases h with ⟨c0, hc0mem, hc0sp, hc0tbl⟩
    cases htc : tbl c with
    | none =>
      cases hsp : py_isspace c with
      | false =>
        refine ⟨c, hsp, htc, ?_⟩
        have hstep : step tbl st c = .error (.valueError (errMsg c)) := by
          simp [step, hsp, htc]
        simp [parseFold, hstep]
      | true =>
        rcases step_always_ok tbl st c wf (Or.inl hsp) with ⟨st1, hst1⟩
        have hc0cs : c0 ∈ cs := by
          rcases List.mem_cons.mp hc0mem with he | hmem
          · rw [he, hsp] at hc0sp; exact Bool.noConfusion hc0sp
          · exact hmem
        rcases ih st1 ⟨c0, hc0cs, hc0sp, hc0tbl⟩ with ⟨cbad, h1, h2, h3⟩
        exact ⟨cbad, h1, h2, by rw [parseFold_cons_ok tbl st st1 c cs hst1]; exact h3⟩
    | some r =>
      rcases step_always_ok tbl st c wf (Or.inr ⟨r, htc⟩) with ⟨st1, hst1⟩
      have hc0cs : c0 ∈ cs := by
        rcases List.mem_cons.mp hc0mem with he | hmem
        · rw [he, htc] at hc0tbl; exact Option.noConfusion hc0tbl
        · exact hmem
      rcases ih st1 ⟨c0, hc0cs, hc0sp, hc0tbl⟩ with ⟨cbad, h1, h2, h3⟩
      exact ⟨cbad, h1, h2, by rw [parseFold_cons_ok tbl st st1 c cs hst1]; exact h3⟩

/-- C5: amended.  For every well-formed table and every input that, after
delimiter substitution, does not contain the role-switcher marker but whose
scanned (stripped) characters include a non-whitespace character absent from
the table, `ipa_parser` raises `ValueError` with a message naming an absent
character, aborting with no partial transcript. -/
theorem C5_unknown_char_aborts (tbl : SymbolTable) (s : String)
    (wf : WellFormedTable tbl)
    (hnosw : roleSwitcherChar ∉ s.toList.map subDelimChar)
    (hbad : ∃ c ∈ pyStripL (s.toList.map subDelimChar),
      py_isspace c = false ∧ tbl c = none) :
    ∃ c, py_isspace c = false ∧ tbl c = none ∧
      ipaParser tbl s = .error (.valueError (errMsg c)) := by
  rcases parseFold_unknown_err tbl wf (pyStripL (s.toList.map subDelimChar))
    initState hbad with ⟨c, h1, h2, h3⟩
  refine ⟨c, h1, h2, ?_⟩
  unfold ipaParser
  rw [if_neg hnosw, h3]

/-- C5 witness: `"t€"` has the unknown character `€` and the tokenizer raises
`ValueError` naming it. -/
theorem C5_unknown_char_aborts_witness :
    WellFormedTable sampleTable ∧
    roleSwitcherChar ∉ ("t€").toList.map subDelimChar ∧
    (∃ c ∈ pyStripL (("t€").toList.map subDelimChar),
      py_isspace c = false ∧ sampleTable c = none) ∧
    ∃ c, py_isspace c = false ∧ sampleTable c = none ∧
      ipaParser sampleTable "t€" = .error (.valueError (errMsg c)) :=
  ⟨sampleTable_wf, by decide, by decide,
   C5_unknown_char_aborts sampleTable "t€" sampleTable_wf (by decide) (by decide)⟩

/-- C5 counterexample to the claim as stated: the input `"€̵"` contains the
unknown non-whitespace character `€`, yet the tokenizer does not fail — the
role-switcher check fires first and returns the sentinel. -/
theorem C5_sentinel_despite_unknown_cex :
    sampleTable '€' = none ∧ py_isspace '€' = false ∧ '€' ∈ ("€̵").toList ∧
    ipaParser sampleTable "€̵" = .sentinel ∧
    (ipaParser sampleTable "€̵").isError = false :=
  ⟨by decide, by decide, by decide, by decide, by decide⟩

theorem pyStrIsspace_single (c : Char) : pyStrIsspace [c] = py_isspace c := by
  simp [pyStrIsspace]

theorem symChars_wsBoundary : symChars wsBoundary = [' '] := rfl

theorem coalesceChars_cons_nonspace (b : Bool) (c : Char) (cs : List Char)
    (h : py_isspace c = false) :
    coalesceChars b (c :: cs) = c :: coalesceChars false cs := by
  simp [coalesceChars, h]

theorem coalesceChars_cons_space_true (c : Char) (cs : List Char)
    (h : py_isspace c = true) :
    coalesceChars true (c :: cs) = coalesceChars true cs := by
  simp [coalesceChars, h]

theorem coalesceChars_cons_space_false (c : Char) (cs : List Char)
    (h : py_isspace c = true) :
    coalesceChars false (c :: cs) = ' ' :: coalesceChars true cs := by
  simp [coalesceChars, h]

theorem transcriptChars_snoc (a : List (List PhoElement)) (x : List PhoElement) :
    transcriptChars (a ++ [x]) = transcriptChars a ++ entryChars x := by
  simp [transcriptChars_append, transcriptChars]

theorem mkPhoElement_symbol (tbl : SymbolTable) (c : Char)
    (hsp : py_isspace c = false) : (mkPhoElement tbl c).symbol = c.toString := by
  unfold mkPhoElement
  rw [hsp]
  cases tbl c <;> simp

theorem classifyChar_symChars (tbl : SymbolTable) (c : Char) (ph : PhoElement)
    (hsp : py_isspace c = false) (h : classifyChar tbl c = some ph) :
    symChars ph = [c] := by
  unfold classifyChar at h
  have h2 := classify_eq_some_fields (mkPhoElement tbl c) ph h
  rw [symChars, h2.2.1, mkPhoElement_symbol tbl c hsp, toList_charToString]

theorem anyBad_cons_ok (tbl : SymbolTable) (st st1 : ParseState) (c : Char)
    (cs : List Char) (h : step tbl st c = .ok st1) :
    anyBad tbl st (c :: cs) = (badHere tbl st c || anyBad tbl st1 cs) := by
  simp [anyBad, h]

theorem parseFold_chars (tbl : SymbolTable) :
    ∀ (cs : List Char) (st st1 : ParseState),
      parseFold tbl st cs = .ok st1 →
      anyBad tbl st cs = false →
      transcriptChars st1.transcript ++ entryChars st1.seg =
        transcriptChars st.transcript ++ entryChars st.seg ++
          coalesceChars (pyStrIsspace st.lastChar) cs := by
  intro cs
  induction cs with
  | nil =>
    intro st st1 hok _
    rw [parseFold_nil] at hok
    rw [Except.ok.injEq] at hok
    subst hok
    simp [coalesceChars]
  | cons c cs ih =>
    intro st st1 hok hbad
    cases hstep : step tbl st c with
    | error e => simp [parseFold, hstep] at hok
    | ok stm =>
      have hok' : parseFold tbl stm cs = .ok st1 := by
        rw [← parseFold_cons_ok tbl st stm c cs hstep]; exact hok
      rw [anyBad_cons_ok tbl st stm c cs hstep, Bool.or_eq_false_iff] at hbad
      obtain ⟨hbh, hbt⟩ := hbad
      have hmain := ih stm st1 hok' hbt
      cases hsp : py_isspace c with
      | true =>
        cases hls : pyStrIsspace st.lastChar with
        | true =>
          simp [step, hsp, hls] at hstep
          subst hstep
          rw [hmain, hls, coalesceChars_cons_space_true c cs hsp]
        | false =>
          simp [step, hsp, hls] at hstep
          subst hstep
          rw [hmain, coalesceChars_cons_space_false c cs hsp]
          simp [transcriptChars_append, transcriptChars, entryChars,
            symChars_wsBoundary, pyStrIsspace_single, hsp, List.append_assoc]
      | false =>
        cases htc : tbl c with
        | none => simp [step, hsp, htc] at hstep
        | some r =>
          cases hcl : classifyChar tbl c with
          | none => simp [step, hsp, htc, hcl] at hstep
          | some ph =>
            have hsym : symChars ph = [c] := classifyChar_symChars tbl c ph hsp hcl
            rw [coalesceChars_cons_nonspace (pyStrIsspace st.lastChar) c cs hsp]
            by_cases hbs : roleIn ph.role ["boundary", "stress"] = true
            · cases hhb : st.hasBase with
              | true =>
                simp [step, hsp, htc, hcl, hbs, hhb] at hstep
                subst hstep
                rw [hmain]
                simp [transcriptChars_append, transcriptChars, entryChars,
                  hsym, pyStrIsspace_single, hsp, List.append_assoc]
              | false =>
                have hseg : st.seg = [] := by
                  simp [badHere, hsp, htc, hcl, hbs, hhb] at hbh
                  exact hbh
                simp [step, hsp, htc, hcl, hbs, hhb] at hstep
                subst hstep
                rw [hmain]
                simp [transcriptChars_append, transcriptChars, entryChars,
                  hsym, hseg, pyStrIsspace_single, hsp, List.append_assoc]
            · cases hhb : st.hasBase with
              | false =>
                simp [step, hsp, htc, hcl, hbs, hhb] at hstep
                subst hstep
                rw [hmain]
                simp [transcriptChars_append, transcriptChars, entryChars_append,
                  entryChars, hsym, pyStrIsspace_single, hsp, List.append_assoc]
              | true =>
                by_cases hend : roleIn ph.role segmentEnders = true
                · simp [step, hsp, htc, hcl, hbs, hhb, hend] at hstep
                  subst hstep
                  rw [hmain]
                  simp [transcriptChars_append, transcriptChars, entryChars,
                    hsym, pyStrIsspace_single, hsp, List.append_assoc]
                · simp [step, hsp, htc, hcl, hbs, hhb, hend] at hstep
                  subst hstep
                  rw [hmain]
                  simp [transcriptChars_append, transcriptChars, entryChars_append,
                    entryChars, hsym, pyStrIsspace_single, hsp, List.append_assoc]

/-- C4: amended.  For every accepted input in which no boundary- or
stress-role character is scanned while the segment buffer is nonempty and
base-less, concatenating the resolved symbols of all transcript entries in
order reproduces the whitespace-NORMALIZED form of the input: delimiters
replaced by spaces, leading/trailing whitespace trimmed, each whitespace
character turned into a plain space and runs of whitespace collapsed to a
single space.  (Without the proviso the buffered elements are emitted after
the boundary/stress entry, permuting the concatenation.) -/
theorem C4_round_trip_normalized (tbl : SymbolTable) (s : String)
    (t : List (List PhoElement)) (hok : ipaParser tbl s = .ok t)
    (hgood : anyBad tbl initState (pyStripL (s.toList.map subDelimChar)) = false) :
    transcriptChars t = normalizeChars s := by
  unfold ipaParser at hok
  by_cases hsw : roleSwitcherChar ∈ s.toList.map subDelimChar
  · rw [if_pos hsw] at hok
    exact ParseResult.noConfusion hok
  · rw [if_neg hsw] at hok
    cases hfold : parseFold tbl initState (pyStripL (s.toList.map subDelimChar)) with
    | error e =>
      rw [hfold] at hok
      exact ParseResult.noConfusion hok
    | ok st =>
      rw [hfold] at hok
      have ht : t = st.transcript ++ [st.seg] := by
        rw [ParseResult.ok.injEq] at hok
        exact hok.symm
      subst ht
      have h := parseFold_chars tbl _ initState st hfold hgood
      rw [transcriptChars_snoc]
      simpa [initState, transcriptChars, entryChars, pyStrIsspace, normalizeChars] using h

/-- C4 witness: for the single-space input `"a b"` (no bad configuration)
the joined symbols equal the normalized input. -/
theorem C4_round_trip_normalized_witness :
    ipaParser sampleTable "a b" = .ok [[elA], [wsBoundary], [elB]] ∧
    anyBad sampleTable initState (pyStripL (("a b").toList.map subDelimChar)) = false ∧
    transcriptChars [[elA], [wsBoundary], [elB]] = normalizeChars "a b" :=
  ⟨by decide, by decide,
   C4_round_trip_normalized sampleTable "a b" [[elA], [wsBoundary], [elB]]
     (by decide) (by decide)⟩

/-- C4 counterexample to the claim as stated: for `"a  b"` (two spaces) the
joined symbols give `"a b"`, which is not the delimiter-stripped,
whitespace-trimmed form `"a  b"` of the input — whitespace runs coalesce. -/
theorem C4_not_verbatim_cex :
    ipaParser sampleTable "a  b" = .ok [[elA], [wsBoundary], [elB]] ∧
    transcriptChars [[elA], [wsBoundary], [elB]] = ['a', ' ', 'b'] ∧
    pyStripL (("a  b").toList.map subDelimChar) = ['a', ' ', ' ', 'b'] ∧
    (['a', ' ', 'b'] : List Char) ≠ ['a', ' ', ' ', 'b'] :=
  ⟨by decide, by decide, by decide, by decide⟩
